import Mathlib

/-!
Shallow embedding of the percore crate: per-CPU-core storage guarded by
exception masking. Machine registers are modelled as `Nat` (bitwise
operations never overflow; the 32-bit complement is taken explicitly
against `0xFFFFFFFF`), panics as `Option.none`, and references into a
container as the index of the slot they point at.
-/

namespace Percore

/-! ## Exception mask control, 64-bit backend (src/exceptions/aarch64.rs)

The DAIF system register holds the D, A, I and F mask bits at bit
positions 9, 8, 7 and 6. `msr DAIFSet, #0xf` sets all four; `mrs`/`msr`
read and write the whole register.
-/

namespace aarch64

/-- Bit pattern written by `msr DAIFSet, #0xf`: bits 6 to 9 of DAIF. -/
def DAIFSET_BITS : Nat := 0xf <<< 6

/-- Model of `mask()`: reads DAIF into `prev`, executes
`msr DAIFSet, #0xf` (setting the four mask bits), and returns `prev`.
Result is the pair (returned previous value, DAIF register after the
call). -/
def mask (daif : Nat) : Nat × Nat :=
  (daif, daif ||| DAIFSET_BITS)

/-- Model of `restore(prev)`: `msr DAIF, prev` writes the saved pattern
back to the whole register. Result is the DAIF register after the
call. -/
def restore (prev : Nat) (_daif : Nat) : Nat :=
  prev

end aarch64

/-! ## Exception mask control, 32-bit backend (src/exceptions/aarch32.rs) -/

namespace aarch32

/-- Mask for the SError interrupt mask, IRQ mask and FIQ mask bits of
CPSR: `0x7 << 6`, bits 6 to 8. -/
def AIF_MASK : Nat := 0x7 <<< 6

/-- Bitwise complement on u32, as the source computes `!AIF_MASK`. -/
def not32 (x : Nat) : Nat := x ^^^ 0xFFFFFFFF

/-- Model of `mask()`: reads CPSR into `prev`, executes `cpsid aif`
(setting the A, I and F bits), and returns `prev & AIF_MASK`. Result is
the pair (returned value, CPSR register after the call). -/
def mask (cpsr : Nat) : Nat × Nat :=
  (cpsr &&& AIF_MASK, cpsr ||| AIF_MASK)

/-- Model of `restore(prev)`: computes `mask = prev | !AIF_MASK`, then
performs the read-modify-write `CPSR := CPSR & mask`. Result is the
CPSR register after the call. -/
def restore (prev : Nat) (cpsr : Nat) : Nat :=
  cpsr &&& (prev ||| not32 AIF_MASK)

end aarch32

/-! ## Scoped exception-free region (src/exceptions.rs) -/

/-- Model of the `ExceptionFree` token: a zero-sized value proving that
exceptions are currently masked. -/
inductive ExceptionFree : Type where
  | new : ExceptionFree
deriving DecidableEq

/-- State of one core as seen by the region machinery: the DAIF
register together with the `prev` fields of the live `ExceptionGuard`s,
innermost guard first. -/
structure MaskState : Type where
  daif : Nat
  saved : List Nat
deriving DecidableEq

/-- Model of entry to `exception_free`: `ExceptionGuard::mask()` calls
the backend `mask()` and stores the returned previous pattern in the
new innermost guard. -/
def enterRegion (s : MaskState) : MaskState :=
  ⟨(aarch64.mask s.daif).2, (aarch64.mask s.daif).1 :: s.saved⟩

/-- Model of exit from `exception_free`: dropping the innermost
`ExceptionGuard` calls `restore(self.prev)` and retires that guard.
The empty case is unreachable for well-nested programs. -/
def exitRegion (s : MaskState) : MaskState :=
  match s.saved with
  | [] => s
  | prev :: rest => ⟨aarch64.restore prev s.daif, rest⟩

/-- Well-nested client programs: the body passed to `exception_free`
can only run further `exception_free` regions (or nothing), because the
guard and the token never escape the call. -/
inductive Prog : Type where
  | skip : Prog
  | seq : Prog → Prog → Prog
  | region : Prog → Prog
deriving DecidableEq

/-- Big-step execution: `region p` is `exception_free` with body `p`;
it masks on entry and drops the scope guard on exit. -/
def exec : Prog → MaskState → MaskState
  | .skip, s => s
  | .seq p q, s => exec q (exec p s)
  | .region p, s => exitRegion (exec p (enterRegion s))

/-- Every state reached during the execution of a program: the state
right after each region entry and right after each region exit. -/
def reachedStates : Prog → MaskState → List MaskState
  | .skip, _ => []
  | .seq p q, s => reachedStates p s ++ reachedStates q (exec p s)
  | .region p, s =>
    enterRegion s ::
      (reachedStates p (enterRegion s) ++ [exitRegion (exec p (enterRegion s))])

/-- The core has all four DAIF mask bits set (exceptions masked). -/
def masked64 (daif : Nat) : Prop :=
  daif &&& aarch64.DAIFSET_BITS = aarch64.DAIFSET_BITS

/-! ## Per-core containers (src/lib.rs and src/boxed.rs)

A reference into a container is modelled by the index of the slot it
points at; `none` models the panic of `self.values[index]` when the
index is out of bounds. The core-identity function `C::core_index()` is
passed explicitly as the value it reports at the moment of the call.
-/

/-- Model of `PerCore<[T; CORE_COUNT], C>`: array-backed per-core
storage. -/
structure PerCore (T : Type) : Type where
  values : List T
deriving DecidableEq

/-- Model of `PerCore<Box<[T]>, C>`: heap-backed per-core storage. -/
structure PerCoreBoxed (T : Type) : Type where
  values : List T
deriving DecidableEq

/-- Model of array-backed `get`: `&self.values[C::core_index()]`, a
shared reference to the current core slot. -/
def PerCore.get {T : Type} (pc : PerCore T) (coreIndex : Nat) : Option Nat :=
  if coreIndex < pc.values.length then some coreIndex else none

/-- Model of array-backed `get_mut`: `&mut self.values[C::core_index()]`,
a unique reference to the current core slot. -/
def PerCore.get_mut {T : Type} (pc : PerCore T) (coreIndex : Nat) : Option Nat :=
  if coreIndex < pc.values.length then some coreIndex else none

/-- Model of heap-backed `get`: `&self.values[C::core_index()]`. -/
def PerCoreBoxed.get {T : Type} (pc : PerCoreBoxed T) (coreIndex : Nat) : Option Nat :=
  if coreIndex < pc.values.length then some coreIndex else none

/-- Model of heap-backed `get_mut`: `&mut self.values[C::core_index()]`. -/
def PerCoreBoxed.get_mut {T : Type} (pc : PerCoreBoxed T) (coreIndex : Nat) : Option Nat :=
  if coreIndex < pc.values.length then some coreIndex else none

/-- Dereference of a slot reference returned by the array-backed
accessors. -/
def PerCore.read {T : Type} (pc : PerCore T) (slot : Nat) : Option T :=
  pc.values[slot]?

/-- Dereference of a slot reference returned by the heap-backed
accessors. -/
def PerCoreBoxed.read {T : Type} (pc : PerCoreBoxed T) (slot : Nat) : Option T :=
  pc.values[slot]?

/-- Write through a unique slot reference of the array-backed form. -/
def PerCore.setSlot {T : Type} (pc : PerCore T) (slot : Nat) (v : T) : PerCore T :=
  ⟨pc.values.set slot v⟩

/-- Model of `PerCore::<Box<[T]>>::new_with_default(core_count)`:
`repeat_with(|| Default::default()).take(core_count).collect()` builds
`core_count` slots, each the default value of `T`. -/
def PerCoreBoxed.new_with_default {T : Type} [Inhabited T] (core_count : Nat) :
    PerCoreBoxed T :=
  ⟨List.replicate core_count default⟩

/-! ## Exception lock (src/criticalcell.rs) and the `RefCell` it wraps -/

/-- Model of `core::cell::RefCell<T>`: the borrow flag (0 when unused,
positive counts outstanding shared borrows, -1 marks an outstanding
mutable borrow) together with the stored value. -/
structure RefCell (T : Type) : Type where
  flag : Int
  value : T
deriving DecidableEq

/-- Model of `core::cell::RefMut<T>`: the exclusive view handed out by
a successful `borrow_mut`. -/
structure RefMut (T : Type) : Type where
  value : T
deriving DecidableEq

/-- Model of `RefCell::borrow_mut`: panics (`none`) exactly when any
borrow is outstanding; on success marks the cell mutably borrowed and
hands out the exclusive view. -/
def RefCell.borrow_mut {T : Type} (c : RefCell T) : Option (RefCell T × RefMut T) :=
  if c.flag = 0 then some (⟨-1, c.value⟩, ⟨c.value⟩) else none

/-- Model of dropping a `RefMut`: the possibly mutated view is written
back and the borrow flag returns to unused. -/
def RefMut.drop {T : Type} (m : RefMut T) (_c : RefCell T) : RefCell T :=
  ⟨0, m.value⟩

/-- Model of `RefCell::as_ptr`: a raw pointer to the contents,
represented by the value it currently points at; the cell itself is
untouched. -/
def RefCell.as_ptr {T : Type} (c : RefCell T) : RefCell T × T :=
  (c, c.value)

/-- Model of `CriticalCell<T>`: allows access to the value only while
exceptions are masked. -/
structure CriticalCell (T : Type) : Type where
  value : T
deriving DecidableEq

/-- Model of `CriticalCell::new`. -/
def CriticalCell.new {T : Type} (value : T) : CriticalCell T :=
  ⟨value⟩

/-- Model of `CriticalCell::borrow`: given a token, returns a shared
reference to the contents; always succeeds, for any token. -/
def CriticalCell.borrow {T : Type} (c : CriticalCell T) (_t : ExceptionFree) : T :=
  c.value

/-- Model of `CriticalCell::borrow_mut` on `CriticalCell<RefCell<T>>`:
`self.borrow(token).borrow_mut()`. -/
def CriticalCell.borrow_mut {T : Type} (c : CriticalCell (RefCell T))
    (t : ExceptionFree) : Option (RefCell T × RefMut T) :=
  (c.borrow t).borrow_mut

/-- Model of `CriticalCell::as_ptr`: `self.value.as_ptr()`. Note the
definition takes no token argument. -/
def CriticalCell.as_ptr {T : Type} (c : CriticalCell (RefCell T)) :
    CriticalCell (RefCell T) × T :=
  (⟨(c.value.as_ptr).1⟩, (c.value.as_ptr).2)

/-- A statement `*cell.borrow_mut(token)` read as a value: acquire the
mutable borrow, read, then drop the temporary `RefMut`. -/
def CriticalCell.readThrough {T : Type} (c : CriticalCell (RefCell T))
    (t : ExceptionFree) : Option (CriticalCell (RefCell T) × T) :=
  match c.borrow_mut t with
  | none => none
  | some (c1, m) => some (⟨m.drop c1⟩, m.value)

/-- A statement `*cell.borrow_mut(token) = v`: acquire the mutable
borrow, write `v` through it, then drop the temporary `RefMut`. -/
def CriticalCell.writeThrough {T : Type} (c : CriticalCell (RefCell T))
    (t : ExceptionFree) (v : T) : Option (CriticalCell (RefCell T)) :=
  match c.borrow_mut t with
  | none => none
  | some (c1, _m) => some ⟨RefMut.drop ⟨v⟩ c1⟩

/-- Scenario state for the `percore_state` test: 4 slots, each an
exception-locked `RefCell` counter initialised to 42, with the core
identity (`FakeCoresImpl`) fixed at index 0. -/
def scenarioState : PerCore (CriticalCell (RefCell Nat)) :=
  ⟨List.replicate 4 (CriticalCell.new ⟨0, 42⟩)⟩

end Percore

namespace Percore

/-- Claim C1: for every prior register value, `mask()` immediately
followed by `restore(previous)` with the value `mask()` returned leaves
the interrupt-enable bits of the status register bit-for-bit identical
to their value before `mask()` was called: on the 64-bit backend the
whole DAIF register (hence every mask bit) round-trips, and on the
32-bit backend the A/I/F bits (bits 6 to 8, selected by `AIF_MASK`)
round-trip. -/
theorem C1_mask_restore_roundtrip :
    (∀ daif : Nat,
      aarch64.restore (aarch64.mask daif).1 (aarch64.mask daif).2 = daif) ∧
    (∀ cpsr : Nat,
      aarch32.restore (aarch32.mask cpsr).1 (aarch32.mask cpsr).2 &&& aarch32.AIF_MASK
        = cpsr &&& aarch32.AIF_MASK) := by
  constructor
  · intro daif
    rfl
  · intro cpsr
    apply Nat.eq_of_testBit_eq
    intro i
    have hsh : (0x7 <<< 6 : Nat) = 448 := rfl
    simp only [aarch32.restore, aarch32.mask, aarch32.not32, aarch32.AIF_MASK, hsh,
      Nat.testBit_and, Nat.testBit_or, Nat.testBit_xor]
    by_cases hi : (448 : Nat).testBit i
    · have hlt : i < 32 := by
        by_contra hge
        have hbig : (448 : Nat) < 2 ^ i := by
          have h1 : (448 : Nat) < 2 ^ 32 := by norm_num
          have h2 : (2 : Nat) ^ 32 ≤ 2 ^ i := Nat.pow_le_pow_right (by norm_num) (by omega)
          omega
        rw [Nat.testBit_lt_two_pow hbig] at hi
        exact Bool.noConfusion hi
      have h32 : (0xFFFFFFFF : Nat).testBit i = true := by
        have hM : (0xFFFFFFFF : Nat) = 2 ^ 32 - 1 := by norm_num
        rw [hM, Nat.testBit_two_pow_sub_one]
        simp [hlt]
      rw [hi, h32]
      cases cpsr.testBit i <;> simp
    · simp only [Bool.not_eq_true] at hi
      rw [hi]
      simp

/-- Helper: entering then immediately exiting a region restores the
mask state exactly (the guard saved the pre-entry DAIF and `restore`
writes it back). -/
theorem exitRegion_enterRegion (s : MaskState) : exitRegion (enterRegion s) = s := rfl

/-- Helper: executing any well-nested program returns the full mask
state (register and guard stack) to its initial value. -/
theorem exec_id (p : Prog) : ∀ s, exec p s = s := by
  induction p with
  | skip => intro s; rfl
  | seq p q ihp ihq => intro s; simp only [exec, ihp, ihq]
  | region p ih => intro s; simp only [exec, ih, exitRegion_enterRegion]

/-- Helper: at every state reached during execution, the pre-execution
guard stack is an untouched suffix of the current guard stack. -/
theorem saved_suffix_reached (p : Prog) :
    ∀ s t, t ∈ reachedStates p s → List.IsSuffix s.saved t.saved := by
  induction p with
  | skip =>
    intro s t ht
    simp [reachedStates] at ht
  | seq p q ihp ihq =>
    intro s t ht
    simp only [reachedStates, List.mem_append] at ht
    rcases ht with h | h
    · exact ihp s t h
    · rw [exec_id p s] at h
      exact ihq s t h
  | region p ih =>
    intro s t ht
    simp only [reachedStates, List.mem_cons, List.mem_append,
      List.mem_singleton] at ht
    rcases ht with rfl | h | rfl | hnil
    · exact ⟨[(aarch64.mask s.daif).1], rfl⟩
    · exact List.IsSuffix.trans ⟨[(aarch64.mask s.daif).1], rfl⟩ (ih (enterRegion s) t h)
    · rw [exec_id p (enterRegion s), exitRegion_enterRegion]
    · exact absurd hnil (List.not_mem_nil t)

/-- Helper: region entry leaves the core with all DAIF mask bits set. -/
theorem masked64_enterRegion (s : MaskState) : masked64 (enterRegion s).daif := by
  show (s.daif ||| aarch64.DAIFSET_BITS) &&& aarch64.DAIFSET_BITS = aarch64.DAIFSET_BITS
  apply Nat.eq_of_testBit_eq
  intro i
  simp only [Nat.testBit_and, Nat.testBit_or]
  cases hb : (aarch64.DAIFSET_BITS).testBit i <;> simp

/-- Claim C2: every entry to `exception_free` pushes the mask pattern
captured at that entry onto the guard stack and transitions the core to
Masked; every exit pops exactly one entry and restores exactly the
pattern captured at that entry; nested regions retire strictly
last-in-first-out, so the outer saved patterns form an untouched suffix
of the guard stack at every reached state; and after a well-nested
program the full mask state is back to its initial value (in particular
the nesting counter, the guard stack length, returns to its pre-entry
value and never drops below it). -/
theorem C2_region_stack_lifo :
    (∀ s : MaskState,
        (enterRegion s).saved = (aarch64.mask s.daif).1 :: s.saved ∧
        masked64 (enterRegion s).daif) ∧
    (∀ (d prev : Nat) (rest : List Nat),
        exitRegion ⟨d, prev :: rest⟩ = ⟨prev, rest⟩) ∧
    (∀ (p : Prog) (s : MaskState), exec p s = s) ∧
    (∀ (p : Prog) (s t : MaskState),
        t ∈ reachedStates p s → List.IsSuffix s.saved t.saved) :=
  ⟨fun s => ⟨rfl, masked64_enterRegion s⟩,
   fun _ _ _ => rfl,
   fun p s => exec_id p s,
   fun p s t h => saved_suffix_reached p s t h⟩

/-- Witness for C2: inside `region (region skip)` started unmasked, the
state right after the inner entry is reached and carries the outer
saved pattern untouched. -/
theorem C2_region_stack_lifo_witness :
    List.IsSuffix (MaskState.mk 0 []).saved (MaskState.mk 960 [0]).saved :=
  C2_region_stack_lifo.2.2.2 (Prog.region Prog.skip) ⟨0, []⟩ ⟨960, [0]⟩ (by decide)

/-- Claim C3: for both per-core container forms, whenever the reported
core index is greater than or equal to the slot count, `get` fails
(the panic is modelled by `none`); failure happens exactly on that
branch; and a successful `get` always yields a reference strictly
inside the container, at the reported index, never an adjacent slot. -/
theorem C3_out_of_bounds_fatal :
    (∀ (T : Type) (pc : PerCore T) (coreIndex : Nat),
        (pc.values.length ≤ coreIndex → pc.get coreIndex = none) ∧
        (pc.get coreIndex = none → pc.values.length ≤ coreIndex) ∧
        (∀ r, pc.get coreIndex = some r →
          r < pc.values.length ∧ r = coreIndex)) ∧
    (∀ (T : Type) (pc : PerCoreBoxed T) (coreIndex : Nat),
        (pc.values.length ≤ coreIndex → pc.get coreIndex = none) ∧
        (pc.get coreIndex = none → pc.values.length ≤ coreIndex) ∧
        (∀ r, pc.get coreIndex = some r →
          r < pc.values.length ∧ r = coreIndex)) := by
  constructor
  · intro T pc i
    refine ⟨fun hge => ?_, fun hnone => ?_, fun r hr => ?_⟩
    · simp [PerCore.get, Nat.not_lt.mpr hge]
    · by_contra hge
      have hlt : i < pc.values.length := by omega
      simp [PerCore.get, hlt] at hnone
    · by_cases h : i < pc.values.length
      · simp [PerCore.get, h] at hr
        omega
      · simp [PerCore.get, h] at hr
  · intro T pc i
    refine ⟨fun hge => ?_, fun hnone => ?_, fun r hr => ?_⟩
    · simp [PerCoreBoxed.get, Nat.not_lt.mpr hge]
    · by_contra hge
      have hlt : i < pc.values.length := by omega
      simp [PerCoreBoxed.get, hlt] at hnone
    · by_cases h : i < pc.values.length
      · simp [PerCoreBoxed.get, h] at hr
        omega
      · simp [PerCoreBoxed.get, h] at hr

/-- Witness for C3: a 2-slot container with the identity reporting
index 2 (equal to the slot count) faults on both forms. -/
theorem C3_out_of_bounds_fatal_witness :
    (⟨[5, 6]⟩ : PerCore Nat).get 2 = none ∧
    (⟨[5, 6]⟩ : PerCoreBoxed Nat).get 2 = none :=
  ⟨(C3_out_of_bounds_fatal.1 Nat ⟨[5, 6]⟩ 2).1 (by decide),
   (C3_out_of_bounds_fatal.2 Nat ⟨[5, 6]⟩ 2).1 (by decide)⟩

/-- Claim C4: for every reported core index `i` within bounds, `get`
returns a reference to exactly the `i`-th storage slot of the
container, on both forms, and that slot exists; two calls observed
under distinct reported indices return distinct slots. -/
theorem C4_get_resolves_reported_index :
    (∀ (T : Type) (pc : PerCore T) (i : Nat), i < pc.values.length →
        pc.get i = some i ∧ (pc.read i).isSome = true) ∧
    (∀ (T : Type) (pc : PerCoreBoxed T) (i : Nat), i < pc.values.length →
        pc.get i = some i ∧ (pc.read i).isSome = true) ∧
    (∀ (T : Type) (pc : PerCore T) (i j : Nat),
        i < pc.values.length → j < pc.values.length → i ≠ j →
          pc.get i ≠ pc.get j) ∧
    (∀ (T : Type) (pc : PerCoreBoxed T) (i j : Nat),
        i < pc.values.length → j < pc.values.length → i ≠ j →
          pc.get i ≠ pc.get j) := by
  refine ⟨fun T pc i h => ⟨?_, ?_⟩, fun T pc i h => ⟨?_, ?_⟩,
    fun T pc i j hi hj hne => ?_, fun T pc i j hi hj hne => ?_⟩
  · simp [PerCore.get, h]
  · simp [PerCore.read, List.getElem?_eq_getElem h]
  · simp [PerCoreBoxed.get, h]
  · simp [PerCoreBoxed.read, List.getElem?_eq_getElem h]
  · simp [PerCore.get, hi, hj, hne]
  · simp [PerCoreBoxed.get, hi, hj, hne]

/-- Witness for C4: a 2-slot container with fake identities reporting 0
and 1. -/
theorem C4_get_resolves_reported_index_witness :
    ((⟨[10, 20]⟩ : PerCore Nat).get 0 = some 0 ∧
      ((⟨[10, 20]⟩ : PerCore Nat).read 0).isSome = true) ∧
    ((⟨[10, 20]⟩ : PerCoreBoxed Nat).get 0 = some 0 ∧
      ((⟨[10, 20]⟩ : PerCoreBoxed Nat).read 0).isSome = true) ∧
    (⟨[10, 20]⟩ : PerCore Nat).get 0 ≠ (⟨[10, 20]⟩ : PerCore Nat).get 1 ∧
    (⟨[10, 20]⟩ : PerCoreBoxed Nat).get 0 ≠ (⟨[10, 20]⟩ : PerCoreBoxed Nat).get 1 :=
  ⟨C4_get_resolves_reported_index.1 Nat ⟨[10, 20]⟩ 0 (by decide),
   C4_get_resolves_reported_index.2.1 Nat ⟨[10, 20]⟩ 0 (by decide),
   C4_get_resolves_reported_index.2.2.1 Nat ⟨[10, 20]⟩ 0 1 (by decide) (by decide)
     (by decide),
   C4_get_resolves_reported_index.2.2.2 Nat ⟨[10, 20]⟩ 0 1 (by decide) (by decide)
     (by decide)⟩

/-- Claim C5 counterexample: contrary to the claim, the heap-backed
(boxed-slice) form does not omit the exclusive accessor; src/boxed.rs
defines `PerCore::<Box<[T]>>::get_mut`, and at a concrete 4-slot
container with the identity reporting 0 it returns the slot-0
reference, exactly like the array-backed accessor. -/
theorem C5_counterexample :
    (⟨[10, 20, 30, 40]⟩ : PerCoreBoxed Nat).get_mut 0 = some 0 ∧
    (⟨[10, 20, 30, 40]⟩ : PerCore Nat).get_mut 0 = some 0 := by
  decide

/-- Claim C5 amended: both the array-backed and the heap-backed form
expose `get_mut`; on both forms it returns an exclusive reference to
the current core slot when the reported index is in bounds and faults
otherwise. -/
theorem C5_get_mut_both_forms :
    (∀ (T : Type) (pc : PerCore T) (i : Nat),
        (i < pc.values.length → pc.get_mut i = some i) ∧
        (pc.values.length ≤ i → pc.get_mut i = none)) ∧
    (∀ (T : Type) (pc : PerCoreBoxed T) (i : Nat),
        (i < pc.values.length → pc.get_mut i = some i) ∧
        (pc.values.length ≤ i → pc.get_mut i = none)) := by
  refine ⟨fun T pc i => ⟨fun h => ?_, fun h => ?_⟩,
    fun T pc i => ⟨fun h => ?_, fun h => ?_⟩⟩
  · simp [PerCore.get_mut, h]
  · simp [PerCore.get_mut, Nat.not_lt.mpr h]
  · simp [PerCoreBoxed.get_mut, h]
  · simp [PerCoreBoxed.get_mut, Nat.not_lt.mpr h]

/-- Witness for the amended C5 at a concrete 2-slot container. -/
theorem C5_get_mut_both_forms_witness :
    (⟨[10, 20]⟩ : PerCore Nat).get_mut 1 = some 1 ∧
    (⟨[10, 20]⟩ : PerCoreBoxed Nat).get_mut 1 = some 1 ∧
    (⟨[10, 20]⟩ : PerCoreBoxed Nat).get_mut 2 = none :=
  ⟨(C5_get_mut_both_forms.1 Nat ⟨[10, 20]⟩ 1).1 (by decide),
   (C5_get_mut_both_forms.2 Nat ⟨[10, 20]⟩ 1).1 (by decide),
   (C5_get_mut_both_forms.2 Nat ⟨[10, 20]⟩ 2).2 (by decide)⟩

/-- Claim C6: for every element type with a default value and every
core count `n`, `new_with_default(n)` yields a heap-backed container
with exactly `n` slots, each equal to the default value. -/
theorem C6_new_with_default (T : Type) [Inhabited T] (core_count : Nat) :
    (PerCoreBoxed.new_with_default core_count : PerCoreBoxed T).values.length
      = core_count ∧
    ∀ i, i < core_count →
      (PerCoreBoxed.new_with_default core_count : PerCoreBoxed T).read i
        = some (default : T) := by
  constructor
  · simp [PerCoreBoxed.new_with_default]
  · intro i hi
    simp [PerCoreBoxed.new_with_default, PerCoreBoxed.read,
      List.getElem?_replicate, hi]

/-- Witness for C6: a heap-backed container for 4 cores of `Nat`
counters; 4 slots, each the default value 0 (shown at slot 2). -/
theorem C6_new_with_default_witness :
    (PerCoreBoxed.new_with_default 4 : PerCoreBoxed Nat).values.length = 4 ∧
    (PerCoreBoxed.new_with_default 4 : PerCoreBoxed Nat).read 2 = some 0 :=
  ⟨(C6_new_with_default Nat 4).1, (C6_new_with_default Nat 4).2 2 (by decide)⟩

/-- Claim C7: given any proof token, `borrow` on an exception lock
always succeeds and returns the wrapped value, identically for every
token (tokens are not bound to a specific lock); `borrow_mut` on a lock
wrapping a `RefCell` fails at runtime exactly when a conflicting borrow
of that cell is outstanding (its borrow flag is not unused), and on
success hands out an exclusive view of the contents. -/
theorem C7_borrow_semantics :
    (∀ (T : Type) (c : CriticalCell T) (t u : ExceptionFree),
        c.borrow t = c.value ∧ c.borrow t = c.borrow u) ∧
    (∀ (T : Type) (c : CriticalCell (RefCell T)) (t : ExceptionFree),
        c.borrow_mut t = none ↔ c.value.flag ≠ 0) ∧
    (∀ (T : Type) (c : CriticalCell (RefCell T)) (t : ExceptionFree)
        (c1 : RefCell T) (m : RefMut T),
        c.borrow_mut t = some (c1, m) →
          m.value = c.value.value ∧ c1.flag = -1 ∧ c1.value = c.value.value) := by
  refine ⟨fun T c t u => ⟨rfl, rfl⟩, fun T c t => ?_, fun T c t c1 m h => ?_⟩
  · unfold CriticalCell.borrow_mut CriticalCell.borrow RefCell.borrow_mut
    by_cases hf : c.value.flag = 0 <;> simp [hf]
  · unfold CriticalCell.borrow_mut CriticalCell.borrow RefCell.borrow_mut at h
    by_cases hf : c.value.flag = 0
    · simp only [hf, if_pos, Option.some.injEq, Prod.mk.injEq] at h
      obtain ⟨h1, h2⟩ := h
      subst h2
      rw [← h1]
      exact ⟨rfl, rfl, rfl⟩
    · simp [hf] at h

/-- Witness for C7: a cell already mutably borrowed (flag -1) faults;
an unused cell (flag 0) yields the exclusive view of its contents. -/
theorem C7_borrow_semantics_witness :
    (CriticalCell.new (RefCell.mk (-1) (5 : Nat))).borrow_mut ExceptionFree.new
        = none ∧
    ((RefMut.mk (5 : Nat)).value
        = ((CriticalCell.new (RefCell.mk 0 (5 : Nat))).value).value ∧
      (RefCell.mk (-1) (5 : Nat)).flag = -1 ∧
      (RefCell.mk (-1) (5 : Nat)).value
        = ((CriticalCell.new (RefCell.mk 0 (5 : Nat))).value).value) :=
  ⟨(C7_borrow_semantics.2.1 Nat (CriticalCell.new (RefCell.mk (-1) 5))
      ExceptionFree.new).mpr (by decide),
   C7_borrow_semantics.2.2 Nat (CriticalCell.new (RefCell.mk 0 5))
     ExceptionFree.new (RefCell.mk (-1) 5) (RefMut.mk 5) (by decide)⟩

/-- Claim C8: with 4 exception-locked `RefCell` counters at 42 and the
core identity fixed at 0, inside a masked region: `get` resolves slot
0, the first read through the token yields 42, writing 43 then reading
again yields 43, and slots 1 through 3 still hold 42 — the write
through slot 0 leaves every other slot unchanged. -/
theorem C8_scenario_slots :
    scenarioState.get 0 = some 0 ∧
    scenarioState.read 0 = some (CriticalCell.new ⟨0, 42⟩) ∧
    (CriticalCell.new (⟨0, 42⟩ : RefCell Nat)).readThrough ExceptionFree.new
      = some (CriticalCell.new ⟨0, 42⟩, 42) ∧
    (CriticalCell.new (⟨0, 42⟩ : RefCell Nat)).writeThrough ExceptionFree.new 43
      = some (CriticalCell.new ⟨0, 43⟩) ∧
    (scenarioState.setSlot 0 (CriticalCell.new ⟨0, 43⟩)).read 0
      = some (CriticalCell.new ⟨0, 43⟩) ∧
    (CriticalCell.new (⟨0, 43⟩ : RefCell Nat)).readThrough ExceptionFree.new
      = some (CriticalCell.new ⟨0, 43⟩, 43) ∧
    (scenarioState.setSlot 0 (CriticalCell.new ⟨0, 43⟩)).read 1
      = some (CriticalCell.new ⟨0, 42⟩) ∧
    (scenarioState.setSlot 0 (CriticalCell.new ⟨0, 43⟩)).read 2
      = some (CriticalCell.new ⟨0, 42⟩) ∧
    (scenarioState.setSlot 0 (CriticalCell.new ⟨0, 43⟩)).read 3
      = some (CriticalCell.new ⟨0, 42⟩) := by
  decide

/-- Helper: the bits of `AIF_MASK` are exactly positions 6 to 8. -/
theorem testBit_aif_mask (i : Nat) :
    (448 : Nat).testBit i = decide (6 ≤ i ∧ i ≤ 8) := by
  by_cases h : i < 9
  · interval_cases i <;> decide
  · have hbig : (448 : Nat) < 2 ^ i := by
      have h1 : (448 : Nat) < 2 ^ 9 := by norm_num
      have h2 : (2 : Nat) ^ 9 ≤ 2 ^ i := Nat.pow_le_pow_right (by norm_num) (by omega)
      omega
    rw [Nat.testBit_lt_two_pow hbig]
    symm
    simp only [decide_eq_false_iff_not]
    omega

/-- Claim C9: on the 32-bit backend, for every saved value and every
current CPSR value (a 32-bit quantity) whose three A/I/F bits are set,
`restore(prev)` changes at most bits 6 to 8: every bit outside those
positions keeps its current value, the A/I/F bits end up equal to the
corresponding bits of `prev`, and `mask()` returns a value in which
every bit outside the three A/I/F positions is zero. -/
theorem C9_restore_only_aif :
    (∀ prev cpsr i : Nat, cpsr < 2 ^ 32 → ¬(6 ≤ i ∧ i ≤ 8) →
        (aarch32.restore prev cpsr).testBit i = cpsr.testBit i) ∧
    (∀ prev cpsr : Nat, cpsr &&& aarch32.AIF_MASK = aarch32.AIF_MASK →
        ∀ i, 6 ≤ i → i ≤ 8 →
          (aarch32.restore prev cpsr).testBit i = prev.testBit i) ∧
    (∀ cpsr i : Nat, ¬(6 ≤ i ∧ i ≤ 8) →
        ((aarch32.mask cpsr).1).testBit i = false) := by
  have hsh : (0x7 <<< 6 : Nat) = 448 := rfl
  refine ⟨fun prev cpsr i hc hi => ?_, fun prev cpsr hm i h6 h8 => ?_,
    fun cpsr i hi => ?_⟩
  · simp only [aarch32.restore, aarch32.not32, aarch32.AIF_MASK, hsh,
      Nat.testBit_and, Nat.testBit_or, Nat.testBit_xor]
    rw [testBit_aif_mask i]
    by_cases h32 : i < 32
    · have hM : (0xFFFFFFFF : Nat).testBit i = true := by
        have hMeq : (0xFFFFFFFF : Nat) = 2 ^ 32 - 1 := by norm_num
        rw [hMeq, Nat.testBit_two_pow_sub_one]
        simp [h32]
      rw [hM]
      simp [hi]
    · have hzero : cpsr.testBit i = false := by
        apply Nat.testBit_lt_two_pow
        have : (2 : Nat) ^ 32 ≤ 2 ^ i := Nat.pow_le_pow_right (by norm_num) (by omega)
        omega
      rw [hzero]
      simp
  · have hc : cpsr.testBit i = true := by
      have := congrArg (fun n => n.testBit i) hm
      simp only [aarch32.AIF_MASK, hsh, Nat.testBit_and, testBit_aif_mask i] at this
      have hd : decide (6 ≤ i ∧ i ≤ 8) = true := by
        simp only [decide_eq_true_eq]
        omega
      rw [hd] at this
      simpa using this
    have hM : (0xFFFFFFFF : Nat).testBit i = true := by
      have hMeq : (0xFFFFFFFF : Nat) = 2 ^ 32 - 1 := by norm_num
      rw [hMeq, Nat.testBit_two_pow_sub_one]
      simp only [decide_eq_true_eq]
      omega
    have hd : decide (6 ≤ i ∧ i ≤ 8) = true := by
      simp only [decide_eq_true_eq]
      omega
    simp only [aarch32.restore, aarch32.not32, aarch32.AIF_MASK, hsh,
      Nat.testBit_and, Nat.testBit_or, Nat.testBit_xor, testBit_aif_mask i,
      hd, hM, hc]
    simp
  · simp only [aarch32.mask, aarch32.AIF_MASK, hsh, Nat.testBit_and,
      testBit_aif_mask i]
    simp [hi]

/-- Witness for C9: a concrete saved value and a concrete CPSR with the
A/I/F bits set. -/
theorem C9_restore_only_aif_witness :
    ((aarch32.restore 448 (2 ^ 32 - 1)).testBit 0 = (2 ^ 32 - 1 : Nat).testBit 0) ∧
    ((aarch32.restore 0 (2 ^ 32 - 1)).testBit 6 = (0 : Nat).testBit 6) ∧
    ((aarch32.mask 12345).1.testBit 0 = false) :=
  ⟨C9_restore_only_aif.1 448 (2 ^ 32 - 1) 0 (by norm_num) (by decide),
   C9_restore_only_aif.2.1 0 (2 ^ 32 - 1) (by decide) 6 (by decide) (by decide),
   C9_restore_only_aif.2.2 12345 0 (by decide)⟩

/-- Claim C10: `as_ptr` on an exception lock wrapping a `RefCell` takes
no proof token (its definition has no token parameter), leaves the cell
unchanged, and the storage it points at is exactly the storage `borrow`
and `borrow_mut` expose. -/
theorem C10_as_ptr_same_storage :
    ∀ (T : Type) (c : CriticalCell (RefCell T)) (t : ExceptionFree),
      (c.as_ptr).1 = c ∧
      (c.as_ptr).2 = (c.borrow t).value ∧
      (∀ c1 m, c.borrow_mut t = some (c1, m) → m.value = (c.as_ptr).2) := by
  intro T c t
  refine ⟨rfl, rfl, fun c1 m h => ?_⟩
  unfold CriticalCell.borrow_mut CriticalCell.borrow RefCell.borrow_mut at h
  by_cases hf : c.value.flag = 0
  · simp only [hf, if_pos, Option.some.injEq, Prod.mk.injEq] at h
    obtain ⟨h1, h2⟩ := h
    subst h2
    rfl
  · simp [hf] at h

/-- Witness for C10 at a concrete cell holding 7. -/
theorem C10_as_ptr_same_storage_witness :
    ((CriticalCell.new (⟨0, 7⟩ : RefCell Nat)).as_ptr).1
        = CriticalCell.new (⟨0, 7⟩ : RefCell Nat) ∧
    (RefMut.mk (7 : Nat)).value
        = ((CriticalCell.new (⟨0, 7⟩ : RefCell Nat)).as_ptr).2 :=
  ⟨(C10_as_ptr_same_storage Nat (CriticalCell.new ⟨0, 7⟩) ExceptionFree.new).1,
   (C10_as_ptr_same_storage Nat (CriticalCell.new ⟨0, 7⟩) ExceptionFree.new).2.2
     ⟨-1, 7⟩ ⟨7⟩ (by decide)⟩

end Percore
